import Mathlib

/-!
# Verification of the Flare custom-feeds toolkit core

Shallow embedding of the core of the repository:

* `PoolPriceCustomFeed` — the on-ledger oracle contract
  (`src/contracts/PoolPriceCustomFeed.sol`): proof structures, the
  verify-and-commit step `updateFromProof`, the price computation
  `_calculatePrice` with Solidity 0.8 checked `uint256` arithmetic, the
  event scan `_parseEvents`, the read interface and the admin functions.
* `CustomFeedsBot` — the off-chain scheduler bot
  (`src/unnamed/part_001`): the BigInt price computation, the
  per-cycle recording attempt with its eligibility checks and circuit
  breaker, the attestation retry loop, and the main round-robin loop.
* `waitForFinalization` — the attestation clients finalization poll.

Machine integers are modelled as `Nat` with explicit `% 2 ^ w` where the
source truncates and explicit overflow guards where Solidity 0.8 checked
arithmetic can revert.  Reverts and thrown errors are `Except String`.
JavaScript floating-point quantities (gas price in gwei, balances in FLR)
are modelled as exact rationals; on all concrete values appearing in this
development the two semantics agree.
-/

namespace FlareCustomFeeds

/-! ## IEVMTransaction proof structures (PoolPriceCustomFeed.sol lines 39-81)

Addresses and `bytes32` words are `Nat`.  The `data` field of an event is
modelled as the already ABI-decoded tuple
`(uint160,int24,uint128,address,address,uint256,uint256)` that
`_parseEvents` obtains from `abi.decode`; well-formedness of the raw byte
encoding is assumed at that interface. -/

namespace IEVMTransaction

structure EventData where
  sqrtPriceX96 : Nat
  tick : Int
  liquidity : Nat
  token0 : Nat
  token1 : Nat
  eventTimestamp : Nat
  blockNumber : Nat
deriving DecidableEq

structure Event where
  logIndex : Nat
  emitterAddress : Nat
  topics : List Nat
  data : EventData
  removed : Bool
deriving DecidableEq

structure RequestBody where
  transactionHash : Nat
  requiredConfirmations : Nat
  provideInput : Bool
  listEvents : Bool
  logIndices : List Nat
deriving DecidableEq

structure ResponseBody where
  blockNumber : Nat
  timestamp : Nat
  sourceAddress : Nat
  isDeployment : Bool
  receivingAddress : Nat
  value : Nat
  input : List Nat
  status : Nat
  events : List Event
deriving DecidableEq

structure Response where
  attestationType : Nat
  sourceId : Nat
  votingRound : Nat
  lowestUsedTimestamp : Nat
  requestBody : RequestBody
  responseBody : ResponseBody
deriving DecidableEq

structure Proof where
  merkleProof : List Nat
  data : Response
deriving DecidableEq

end IEVMTransaction

/-! ## PoolPriceCustomFeed: configuration and state -/

namespace PoolPriceCustomFeed

/-- Immutable configuration baked in by the constructor. -/
structure OracleConfig where
  priceRecorderAddress : Nat
  poolAddress : Nat
  token0Decimals : Nat
  token1Decimals : Nat
  invertPrice : Bool
deriving DecidableEq

/-- The mutable contract storage. -/
structure OracleState where
  owner : Nat
  latestValue : Nat
  lastUpdateTimestamp : Nat
  updateCount : Nat
  acceptingUpdates : Bool
  totalGasUsedForVerification : Nat
  totalProofsVerified : Nat
deriving DecidableEq

/-- `keccak256("PriceRecorded(address,uint160,int24,uint128,address,address,uint256,uint256)")`,
the event signature constant `PRICE_RECORDED_TOPIC` of the contract. -/
def PRICE_RECORDED_TOPIC : Nat :=
  0x17440ab048fe6c6cbd98dc862b13c09a99713ac93c0d806c9b2a2a384787935e

/-- Constructor argument validation (`require` statements at deployment). -/
def ValidOracleConfig (cfg : OracleConfig) : Prop :=
  cfg.priceRecorderAddress ≠ 0 ∧ cfg.poolAddress ≠ 0 ∧
  0 < cfg.token0Decimals ∧ cfg.token0Decimals ≤ 18 ∧
  0 < cfg.token1Decimals ∧ cfg.token1Decimals ≤ 18

/-- Storage contents right after the constructor ran (Solidity zero-initialises
every field that the constructor body does not assign). -/
def initialState (deployer : Nat) : OracleState :=
  { owner := deployer
    latestValue := 0
    lastUpdateTimestamp := 0
    updateCount := 0
    acceptingUpdates := true
    totalGasUsedForVerification := 0
    totalProofsVerified := 0 }

/-- Solidity 0.8 checked `uint256` arithmetic: a result that does not fit in
256 bits reverts with an arithmetic-overflow panic. -/
def checkedU256 (x : Nat) : Except String Nat :=
  if x < 2 ^ 256 then Except.ok x else Except.error "panic: arithmetic overflow"

/-- `_calculatePrice` (contract lines 372-416), including the overflow
behaviour of its checked `uint256` multiplications and exponentiations and
its two final sanity `require`s. -/
def calculatePrice (cfg : OracleConfig) (sqrtPriceX96 : Nat) :
    Except String Nat := do
  let sq ← checkedU256 (sqrtPriceX96 * sqrtPriceX96)
  let numerator ← checkedU256 (sq * 10 ^ 18)
  let denominator := (2 ^ 96) * (2 ^ 96)
  let price0 := numerator / denominator
  let price1 ←
    if cfg.token0Decimals > cfg.token1Decimals then do
      let pow10 ← checkedU256 (10 ^ (cfg.token0Decimals - cfg.token1Decimals))
      checkedU256 (price0 * pow10)
    else if cfg.token1Decimals > cfg.token0Decimals then do
      let pow10 ← checkedU256 (10 ^ (cfg.token1Decimals - cfg.token0Decimals))
      pure (price0 / pow10)
    else
      pure price0
  let price2 := price1 / 10 ^ 12
  let price3 := if cfg.invertPrice ∧ price2 ≠ 0 then 10 ^ 12 / price2 else price2
  if price3 = 0 then Except.error "Price must be positive"
  else if ¬ price3 < 2 ^ 128 - 1 then Except.error "Price exceeds maximum"
  else pure price3

/-- `_parseEvents` (contract lines 313-364): scan the event list for the
first event emitted by the configured recorder whose first topic is the
`PriceRecorded` signature; check the indexed pool topic, compute the price,
truncate the event timestamp to `uint64`.  Accessing `topics[1]` on an
event with a single topic is a Solidity array-bounds panic. -/
def parseEvents (cfg : OracleConfig) :
    List IEVMTransaction.Event → Except String (Nat × Nat)
  | [] => Except.error "PriceRecorded event not found"
  | evt :: rest =>
    if evt.emitterAddress ≠ cfg.priceRecorderAddress then parseEvents cfg rest
    else
      match evt.topics with
      | [] => parseEvents cfg rest
      | t0 :: ts =>
        if t0 ≠ PRICE_RECORDED_TOPIC then parseEvents cfg rest
        else
          match ts with
          | [] => Except.error "panic: array out of bounds"
          | t1 :: _ =>
            if t1 % 2 ^ 160 ≠ cfg.poolAddress then Except.error "Wrong pool"
            else do
              let price ← calculatePrice cfg evt.data.sqrtPriceX96
              pure (price, evt.data.eventTimestamp % 2 ^ 64)

/-- The body of `updateFromProof` (contract lines 261-305).  The external
FDC verification contract is a parameter `fdcVerify`; `gasUsed` stands for
the `gasStart - gasleft()` measurement. -/
def updateFromProofBody (cfg : OracleConfig)
    (fdcVerify : IEVMTransaction.Proof → Bool) (s : OracleState)
    (proof : IEVMTransaction.Proof) (gasUsed : Nat) :
    Except String OracleState :=
  if ¬ s.acceptingUpdates then Except.error "Updates paused"
  else if ¬ fdcVerify proof then Except.error "Invalid FDC proof"
  else if proof.data.responseBody.receivingAddress ≠ cfg.priceRecorderAddress
    then Except.error "Wrong contract address"
  else if proof.data.responseBody.status ≠ 1 then
    Except.error "Transaction failed"
  else do
    let (newPrice, timestamp) ← parseEvents cfg proof.data.responseBody.events
    pure { s with
      latestValue := newPrice
      lastUpdateTimestamp := timestamp
      updateCount := s.updateCount + 1
      totalGasUsedForVerification := s.totalGasUsedForVerification + gasUsed
      totalProofsVerified := s.totalProofsVerified + 1 }

/-- EVM external-call semantics for `updateFromProof`: a revert rolls every
storage write back, so the post-state of a failed call is the pre-state. -/
def updateFromProof (cfg : OracleConfig)
    (fdcVerify : IEVMTransaction.Proof → Bool) (s : OracleState)
    (proof : IEVMTransaction.Proof) (gasUsed : Nat) :
    OracleState × Option String :=
  match updateFromProofBody cfg fdcVerify s proof gasUsed with
  | Except.ok s2 => (s2, none)
  | Except.error e => (s, some e)

/-- `DECIMALS` constant of the contract. -/
def DECIMALS : Int := 6

/-- `read()` (contract lines 432-435); a Solidity `view` function, so it
cannot write storage. -/
def read (s : OracleState) : Except String Nat :=
  if 0 < s.latestValue then Except.ok s.latestValue
  else Except.error "No data available"

/-- `getCurrentFeed()` (contract lines 459-467); its body contains no
storage writes. -/
def getCurrentFeed (s : OracleState) : Except String (Nat × Int × Nat) :=
  if 0 < s.latestValue then
    Except.ok (s.latestValue, DECIMALS, s.lastUpdateTimestamp)
  else Except.error "No data available"

/-- `pauseUpdates()` (owner only). -/
def pauseUpdates (sender : Nat) (s : OracleState) : Except String OracleState :=
  if sender ≠ s.owner then Except.error "Not owner"
  else pure { s with acceptingUpdates := false }

/-- `resumeUpdates()` (owner only). -/
def resumeUpdates (sender : Nat) (s : OracleState) : Except String OracleState :=
  if sender ≠ s.owner then Except.error "Not owner"
  else pure { s with acceptingUpdates := true }

/-- `transferOwnership(newOwner)` (owner only, nonzero target). -/
def transferOwnership (sender newOwner : Nat) (s : OracleState) :
    Except String OracleState :=
  if sender ≠ s.owner then Except.error "Not owner"
  else if newOwner = 0 then Except.error "Invalid address"
  else pure { s with owner := newOwner }

/-- The states an oracle instance can reach: deployment followed by any
sequence of successful state-mutating external calls (reverted calls leave
the state unchanged, so they need no transition). -/
inductive Reachable (cfg : OracleConfig) : OracleState → Prop
  | init (deployer : Nat) : Reachable cfg (initialState deployer)
  | update {s s2 : OracleState} (fdcVerify : IEVMTransaction.Proof → Bool)
      (proof : IEVMTransaction.Proof) (gasUsed : Nat) :
      Reachable cfg s →
      updateFromProofBody cfg fdcVerify s proof gasUsed = Except.ok s2 →
      Reachable cfg s2
  | pause {s s2 : OracleState} (sender : Nat) :
      Reachable cfg s → pauseUpdates sender s = Except.ok s2 → Reachable cfg s2
  | resume {s s2 : OracleState} (sender : Nat) :
      Reachable cfg s → resumeUpdates sender s = Except.ok s2 → Reachable cfg s2
  | transfer {s s2 : OracleState} (sender newOwner : Nat) :
      Reachable cfg s → transferOwnership sender newOwner s = Except.ok s2 →
      Reachable cfg s2

end PoolPriceCustomFeed

/-! ## CustomFeedsBot: the off-chain scheduler (src/unnamed/part_001)

The external world of one loop iteration (RPC answers, transaction fate,
attestation fate) is a `CycleEnv`; the global mutable bot object is a
`BotState`.  Wall-clock bookkeeping fields (`startTime`, `lastTime`,
timing and fee totals) and log output are omitted: no claim mentions
them and they feed no control decision. -/

namespace CustomFeedsBot

/-- Per-feed static configuration (pool entry of `config.POOLS`). -/
structure PoolConfig where
  poolAddress : Nat
  token0Decimals : Nat
  token1Decimals : Nat
  invertPrice : Bool
deriving DecidableEq

/-- Operator configuration values used by the loop. -/
structure BotConfig where
  pools : List PoolConfig
  maxGasPriceGwei : ℚ
  minBalanceFLR : ℚ
  criticalBalanceFLR : ℚ
  maxAttestationRetries : Nat

/-- The decimal-adjusted 6-decimal price before the optional inversion:
`sqrtPriceX96 * sqrtPriceX96 * 10n ** 18n / (2n ** 96n) ** 2`, decimal
adjustment, then `/ 10n ** 12n` — all BigInt (arbitrary precision). -/
def rawPrice6 (pc : PoolConfig) (sqrtPriceX96 : Nat) : Nat :=
  let numerator := sqrtPriceX96 * sqrtPriceX96 * 10 ^ 18
  let denominator := (2 ^ 96) * (2 ^ 96)
  let price0 := numerator / denominator
  let price1 :=
    if pc.token0Decimals > pc.token1Decimals then
      price0 * 10 ^ (pc.token0Decimals - pc.token1Decimals)
    else if pc.token1Decimals > pc.token0Decimals then
      price0 / 10 ^ (pc.token1Decimals - pc.token0Decimals)
    else price0
  price1 / 10 ^ 12

/-- The BigInt value computed by `CustomFeedsBot.calculatePrice`
(part_001 lines 965-994).  The final display conversion
`(Number(price) / 1e6).toFixed(6)` formats this value and is not part of
the numeric computation. -/
def calculatePrice (pc : PoolConfig) (sqrtPriceX96 : Nat) : Nat :=
  let price := rawPrice6 pc sqrtPriceX96
  if pc.invertPrice ∧ price ≠ 0 then 10 ^ 12 / price else price

/-- `this.stats.recording` counters. -/
structure RecordingStats where
  successful : Nat
  failed : Nat
  consecutiveFailures : Nat
  totalGasUsed : Nat
deriving DecidableEq

/-- `this.stats.attestation` counters. -/
structure AttestationStats where
  successful : Nat
  failed : Nat
deriving DecidableEq

/-- The mutable bot object threaded through the main loop. -/
structure BotState where
  isRunning : Bool
  cycleCount : Nat
  currentPoolIndex : Nat
  recording : RecordingStats
  attestation : AttestationStats
deriving DecidableEq

/-- Bot object as built by the constructor, right after `start()` set
`isRunning`. -/
def initialBotState : BotState :=
  { isRunning := true
    cycleCount := 0
    currentPoolIndex := 0
    recording := { successful := 0, failed := 0, consecutiveFailures := 0,
                   totalGasUsed := 0 }
    attestation := { successful := 0, failed := 0 } }

/-- `provider.getFeeData()` result (wei amounts; `null` fields are `none`). -/
structure FeeData where
  gasPrice : Option Nat
  maxFeePerGas : Option Nat
deriving DecidableEq

/-- The external world of one loop iteration. -/
structure CycleEnv where
  /-- wallet balance in FLR as read by `checkBalance`. -/
  balanceFLR : ℚ
  /-- result of `priceRecorder.canUpdate(pool)` for the selected pool. -/
  canUpdate : Bool
  feeData : FeeData
  /-- whether `recordPriceForPool` resolves without throwing
  (transaction accepted, mined and not timed out). -/
  recordSucceeds : Bool
  /-- `receipt.gasUsed` of a successful recording. -/
  gasUsed : Nat
  /-- whether attestation attempt number `n` (0-based) succeeds. -/
  attestAttemptSucceeds : Nat → Bool

/-- Gas price in gwei as computed by `tryRecordPrice`:
`Number(feeData.gasPrice) / 1e9`, falling back to `maxFeePerGas`,
`none` when neither field is present. -/
def gasPriceGweiOf (fd : FeeData) : Option ℚ :=
  match fd.gasPrice with
  | some w => some ((w : ℚ) / 10 ^ 9)
  | none =>
    match fd.maxFeePerGas with
    | some w => some ((w : ℚ) / 10 ^ 9)
    | none => none

/-- Result of one `tryRecordPrice` call. -/
inductive RecordOutcome
  /-- returned `null` before reaching `recordPriceForPool`. -/
  | skipped
  /-- `recordPriceForPool` resolved: a recording landed on chain. -/
  | recorded (gasUsed : Nat)
  /-- an error was caught: the failure counters were bumped. -/
  | recordFailed
deriving DecidableEq

/-- `tryRecordPrice` (part_001 lines 829-881): eligibility checks, the
recording attempt, the failure counters and the circuit breaker.  The
returned `Bool` is whether the circuit breaker fired (`stop()` +
`process.exit`). -/
def tryRecordPrice (cfg : BotConfig) (env : CycleEnv) (st : RecordingStats) :
    RecordingStats × RecordOutcome × Bool :=
  if ¬ env.canUpdate then (st, RecordOutcome.skipped, false)
  else
    match gasPriceGweiOf env.feeData with
    | none => (st, RecordOutcome.skipped, false)
    | some gwei =>
      if gwei > cfg.maxGasPriceGwei then (st, RecordOutcome.skipped, false)
      else if env.recordSucceeds then
        ({ st with successful := st.successful + 1
                   consecutiveFailures := 0
                   totalGasUsed := st.totalGasUsed + env.gasUsed },
         RecordOutcome.recorded env.gasUsed, false)
      else
        let st2 := { st with failed := st.failed + 1
                             consecutiveFailures := st.consecutiveFailures + 1 }
        (st2, RecordOutcome.recordFailed, decide (10 ≤ st2.consecutiveFailures))

/-- The attestation retry loop of `tryAttest` (part_001 lines 996-1101)
from attempt number `attempt` with `remaining` retries left: a successful
attempt bumps `successful` and returns; a failed attempt retries while
retries remain, else bumps `failed`. -/
def tryAttestFrom (attemptSucceeds : Nat → Bool) (attempt : Nat) :
    Nat → AttestationStats → AttestationStats
  | remaining, st =>
    if attemptSucceeds attempt then { st with successful := st.successful + 1 }
    else
      match remaining with
      | 0 => { st with failed := st.failed + 1 }
      | r + 1 => tryAttestFrom attemptSucceeds (attempt + 1) r st

/-- `tryAttest`: up to `MAX_ATTESTATION_RETRIES` retries after the first
attempt. -/
def tryAttest (cfg : BotConfig) (attemptSucceeds : Nat → Bool)
    (st : AttestationStats) : AttestationStats :=
  tryAttestFrom attemptSucceeds 0 cfg.maxAttestationRetries st

/-- `checkBalance` (part_001 lines 813-826): every 10th cycle, a balance
below the critical threshold halts the bot.  Returns `true` when the bot
halts. -/
def checkBalance (cfg : BotConfig) (cycleCount : Nat) (balanceFLR : ℚ) :
    Bool :=
  if cycleCount % 10 ≠ 0 then false
  else decide (balanceFLR < cfg.criticalBalanceFLR)

/-- Observable of one loop iteration. -/
structure CycleObs where
  /-- whether `recordPriceForPool` was invoked, i.e. a recording
  transaction was attempted. -/
  attemptedRecording : Bool
deriving DecidableEq

/-- One iteration of the main `while (this.isRunning)` loop body
(part_001 lines 742-784), assuming the guard held on entry. -/
def cycleStep (cfg : BotConfig) (st : BotState) (env : CycleEnv) :
    BotState × CycleObs :=
  let st := { st with cycleCount := st.cycleCount + 1 }
  if checkBalance cfg st.cycleCount env.balanceFLR then
    ({ st with isRunning := false }, { attemptedRecording := false })
  else if cfg.pools.isEmpty then (st, { attemptedRecording := false })
  else
    let st := { st with
      currentPoolIndex := (st.currentPoolIndex + 1) % cfg.pools.length }
    match tryRecordPrice cfg env st.recording with
    | (rec2, RecordOutcome.skipped, _) =>
      ({ st with recording := rec2 }, { attemptedRecording := false })
    | (rec2, RecordOutcome.recorded _, _) =>
      ({ st with recording := rec2
                 attestation :=
                   tryAttest cfg env.attestAttemptSucceeds st.attestation },
       { attemptedRecording := true })
    | (rec2, RecordOutcome.recordFailed, halted) =>
      ({ st with recording := rec2, isRunning := !halted },
       { attemptedRecording := true })

/-- The main loop run against a stream of per-iteration environments: the
`isRunning` guard is re-checked before every iteration, so a halted bot
performs no further iteration and produces no further observation. -/
def runLoop (cfg : BotConfig) : BotState → List CycleEnv →
    BotState × List CycleObs
  | st, [] => (st, [])
  | st, env :: rest =>
    if ¬ st.isRunning then (st, [])
    else
      let (st2, obs) := cycleStep cfg st env
      let (stf, obss) := runLoop cfg st2 rest
      (stf, obs :: obss)

end CustomFeedsBot

/-! ## Attestation client: finalization wait (src/unnamed/part_001 lines 1413-1444) -/

/-- The polling loop of `waitForFinalization` from elapsed time `elapsed`
seconds: while the deadline has not passed, query the relay; return `true`
on a positive answer, otherwise sleep 10 seconds and poll again; return
`false` once the deadline passes.  The relay answer is a function of the
elapsed time; RPC latency is idealised to zero, so polls happen exactly
every 10 seconds. -/
def waitForFinalizationFrom (isFinalized : Nat → Bool)
    (maxWaitSeconds : Nat) (elapsed : Nat) : Bool :=
  if h : elapsed < maxWaitSeconds then
    if isFinalized elapsed then true
    else waitForFinalizationFrom isFinalized maxWaitSeconds (elapsed + 10)
  else false
termination_by maxWaitSeconds - elapsed
decreasing_by omega

/-- `waitForFinalization(provider, votingRoundId, maxWaitSeconds)`: the
relay predicate is already specialised to the voting round. -/
def waitForFinalization (isFinalized : Nat → Bool) (maxWaitSeconds : Nat) :
    Bool :=
  waitForFinalizationFrom isFinalized maxWaitSeconds 0

/-! ## Derived definitions over the model -/

namespace PoolPriceCustomFeed

/-- View of the oracle configuration as a bot pool entry: the same pool,
decimals and inversion flag. -/
def toPoolConfig (cfg : OracleConfig) : CustomFeedsBot.PoolConfig :=
  { poolAddress := cfg.poolAddress, token0Decimals := cfg.token0Decimals,
    token1Decimals := cfg.token1Decimals, invertPrice := cfg.invertPrice }

/-- The ideal arbitrary-precision value of the price computation for this
oracle configuration: the same arithmetic as `_calculatePrice` (and as the
bot BigInt computation) free of any word-size or range restriction. -/
def purePrice (cfg : OracleConfig) (sqrtPriceX96 : Nat) : Nat :=
  CustomFeedsBot.calculatePrice (toPoolConfig cfg) sqrtPriceX96

/-- The event the `_parseEvents` loop locks onto: the first event whose
emitter is the configured recorder and whose first topic is the
`PriceRecorded` signature (the §9 typed search with an explicit not-found
outcome). -/
def findPriceEvent (cfg : OracleConfig) :
    List IEVMTransaction.Event → Option IEVMTransaction.Event
  | [] => none
  | evt :: rest =>
    if evt.emitterAddress ≠ cfg.priceRecorderAddress then findPriceEvent cfg rest
    else
      match evt.topics with
      | [] => findPriceEvent cfg rest
      | t0 :: _ =>
        if t0 ≠ PRICE_RECORDED_TOPIC then findPriceEvent cfg rest else some evt

end PoolPriceCustomFeed

namespace CustomFeedsBot

/-- The two eligibility checks of `tryRecordPrice`: the recorder reports the
feed updatable, and a gas price could be determined and does not exceed
(strictly) the configured gwei ceiling. -/
def recordEligible (cfg : BotConfig) (env : CycleEnv) : Prop :=
  env.canUpdate = true ∧
    match gasPriceGweiOf env.feeData with
    | none => False
    | some gwei => gwei ≤ cfg.maxGasPriceGwei

/-- The loop iteration reaches its recording attempt: the periodic balance
check did not halt the bot and at least one pool is configured. -/
def cycleReachesRecording (cfg : BotConfig) (st : BotState) (env : CycleEnv) :
    Prop :=
  checkBalance cfg (st.cycleCount + 1) env.balanceFLR = false ∧ cfg.pools ≠ []

end CustomFeedsBot

/-! ## PriceRecorder: the on-ledger eligibility view (src/contracts/PriceRecorder.sol) -/

namespace PriceRecorder

/-- The recorder storage read by `canUpdate`. -/
structure RecorderState where
  isRecording : Bool
  enabledPools : Nat → Bool
  lastUpdate : Nat → Nat
  updateInterval : Nat

/-- `canUpdate(pool)` (PriceRecorder.sol lines 346-349): false while paused
or for a pool that is not enabled, otherwise true exactly when the minimum
update interval has elapsed since the pool last recording. -/
def canUpdate (rs : RecorderState) (blockTimestamp pool : Nat) : Bool :=
  if ¬ rs.isRecording ∨ ¬ rs.enabledPools pool then false
  else decide (rs.lastUpdate pool + rs.updateInterval ≤ blockTimestamp)

end PriceRecorder

/-! ## Shared concrete instances used by witnesses and counterexamples -/

namespace Ex

open PoolPriceCustomFeed CustomFeedsBot IEVMTransaction

/-- Oracle config: recorder at address 11, pool at address 22, two 6-decimal
tokens, no inversion. -/
def cfg66 : OracleConfig :=
  { priceRecorderAddress := 11, poolAddress := 22, token0Decimals := 6,
    token1Decimals := 6, invertPrice := false }

/-- The matching bot pool entry. -/
def pc66 : PoolConfig :=
  { poolAddress := 22, token0Decimals := 6, token1Decimals := 6,
    invertPrice := false }

/-- Same pool with the inversion flag set. -/
def pcInv : PoolConfig :=
  { poolAddress := 22, token0Decimals := 6, token1Decimals := 6,
    invertPrice := true }

/-- Freshly deployed oracle owned by address 7. -/
def st0 : OracleState := initialState 7

/-- A `PriceRecorded` event for pool 22 at a 1:1 square-root price,
timestamped 2000. -/
def evtA : Event :=
  { logIndex := 0, emitterAddress := 11
    topics := [PRICE_RECORDED_TOPIC, 22]
    data := { sqrtPriceX96 := 2 ^ 96, tick := 0, liquidity := 5, token0 := 1,
              token1 := 2, eventTimestamp := 2000, blockNumber := 33 }
    removed := false }

/-- A second `PriceRecorded` event, doubled square-root price, with an OLDER
timestamp (1000 < 2000). -/
def evtB : Event :=
  { logIndex := 0, emitterAddress := 11
    topics := [PRICE_RECORDED_TOPIC, 22]
    data := { sqrtPriceX96 := 2 ^ 97, tick := 0, liquidity := 5, token0 := 1,
              token1 := 2, eventTimestamp := 1000, blockNumber := 44 }
    removed := false }

/-- A `PriceRecorded` event whose recorded square-root price is zero, so the
computed price is zero. -/
def evtZero : Event :=
  { logIndex := 0, emitterAddress := 11
    topics := [PRICE_RECORDED_TOPIC, 22]
    data := { sqrtPriceX96 := 0, tick := 0, liquidity := 5, token0 := 1,
              token1 := 2, eventTimestamp := 3000, blockNumber := 55 }
    removed := false }

def mkProof (evt : Event) (receiving : Nat) (txHash : Nat) : Proof :=
  { merkleProof := [1, 2]
    data :=
      { attestationType := 200, sourceId := 14, votingRound := 900000
        lowestUsedTimestamp := 0
        requestBody :=
          { transactionHash := txHash, requiredConfirmations := 1
            provideInput := false, listEvents := true, logIndices := [] }
        responseBody :=
          { blockNumber := 123, timestamp := 456, sourceAddress := 5
            isDeployment := false, receivingAddress := receiving, value := 0
            input := [], status := 1, events := [evt] } } }

/-- Valid proof carrying `evtA`. -/
def proofA : Proof := mkProof evtA 11 1001

/-- Valid proof carrying `evtB` (distinct from `proofA`, older embedded
timestamp). -/
def proofB : Proof := mkProof evtB 11 1002

/-- Proof whose `receivingAddress` (99) differs from the configured
recorder (11). -/
def proofWrongContract : Proof := mkProof evtA 99 1003

/-- Valid-looking proof whose event yields a zero computed price. -/
def proofZeroPrice : Proof := mkProof evtZero 11 1004

/-- An FDC verifier that accepts everything. -/
def acceptAll : Proof → Bool := fun _ => true

/-- Oracle state after `updateFromProof` with `proofA` from `st0`. -/
def st1 : OracleState :=
  { owner := 7, latestValue := 1000000, lastUpdateTimestamp := 2000
    updateCount := 1, acceptingUpdates := true
    totalGasUsedForVerification := 0, totalProofsVerified := 1 }

/-- Oracle state after a further `updateFromProof` with `proofB`. -/
def st2 : OracleState :=
  { owner := 7, latestValue := 4000000, lastUpdateTimestamp := 1000
    updateCount := 2, acceptingUpdates := true
    totalGasUsedForVerification := 0, totalProofsVerified := 2 }

/-- Bot configuration: one pool, 50 gwei gas ceiling, default balances and
retry count. -/
def cfgBot : BotConfig :=
  { pools := [pc66], maxGasPriceGwei := 50, minBalanceFLR := 1,
    criticalBalanceFLR := 1 / 10, maxAttestationRetries := 2 }

/-- Cycle environment whose gas price (50 gwei) equals the ceiling exactly,
with an updatable feed and a succeeding recording. -/
def envGasAtCeiling : CycleEnv :=
  { balanceFLR := 10, canUpdate := true
    feeData := { gasPrice := some 50000000000, maxFeePerGas := none }
    recordSucceeds := true, gasUsed := 100000
    attestAttemptSucceeds := fun _ => true }

/-- Cycle environment in which the recorder reports the interval not yet
elapsed. -/
def envCannotUpdate : CycleEnv :=
  { balanceFLR := 10, canUpdate := false
    feeData := { gasPrice := some 25000000000, maxFeePerGas := none }
    recordSucceeds := true, gasUsed := 100000
    attestAttemptSucceeds := fun _ => true }

/-- Cycle environment with acceptable gas (25 gwei) whose recording
transaction fails. -/
def envRecordFails : CycleEnv :=
  { balanceFLR := 10, canUpdate := true
    feeData := { gasPrice := some 25000000000, maxFeePerGas := none }
    recordSucceeds := false, gasUsed := 0
    attestAttemptSucceeds := fun _ => false }

/-- Fresh recording counters. -/
def recStats0 : RecordingStats :=
  { successful := 0, failed := 0, consecutiveFailures := 0, totalGasUsed := 0 }

/-- Bot that has seen nine consecutive recording failures. -/
def botSt9 : BotState :=
  { isRunning := true, cycleCount := 0, currentPoolIndex := 0
    recording := { successful := 0, failed := 9, consecutiveFailures := 9,
                   totalGasUsed := 0 }
    attestation := { successful := 0, failed := 0 } }

/-- Bot halted by the circuit breaker. -/
def botHalted : BotState :=
  { isRunning := false, cycleCount := 10, currentPoolIndex := 0
    recording := { successful := 0, failed := 10, consecutiveFailures := 10,
                   totalGasUsed := 0 }
    attestation := { successful := 0, failed := 0 } }

/-- Recorder with a 300-second interval whose pool last recorded at 1000. -/
def rsRecorder : PriceRecorder.RecorderState :=
  { isRecording := true, enabledPools := fun _ => true,
    lastUpdate := fun _ => 1000, updateInterval := 300 }

end Ex

/-! ## Helper lemmas about the oracle contract -/

namespace PoolPriceCustomFeed

theorem updateFromProofBody_ok {cfg : OracleConfig}
    {v : IEVMTransaction.Proof → Bool} {s : OracleState}
    {proof : IEVMTransaction.Proof} {g : Nat} {s2 : OracleState}
    (h : updateFromProofBody cfg v s proof g = Except.ok s2) :
    s.acceptingUpdates = true ∧ v proof = true ∧
    proof.data.responseBody.receivingAddress = cfg.priceRecorderAddress ∧
    proof.data.responseBody.status = 1 ∧
    ∃ pr ts, parseEvents cfg proof.data.responseBody.events = Except.ok (pr, ts) ∧
      s2 = { s with
        latestValue := pr
        lastUpdateTimestamp := ts
        updateCount := s.updateCount + 1
        totalGasUsedForVerification := s.totalGasUsedForVerification + g
        totalProofsVerified := s.totalProofsVerified + 1 } := by
  unfold updateFromProofBody at h
  split_ifs at h with h1 h2 h3 h4
  refine ⟨by simpa using h1, by simpa using h2, by simpa using h3,
    by simpa using h4, ?_⟩
  cases hp : parseEvents cfg proof.data.responseBody.events with
  | error e => simp [hp, Bind.bind, Except.bind] at h
  | ok pt =>
    obtain ⟨pr, ts⟩ := pt
    refine ⟨pr, ts, rfl, ?_⟩
    simp [hp, Bind.bind, Except.bind, pure, Except.pure] at h
    exact h.symm

theorem pauseUpdates_ok {sender : Nat} {s s2 : OracleState}
    (h : pauseUpdates sender s = Except.ok s2) :
    s2 = { s with acceptingUpdates := false } := by
  unfold pauseUpdates at h
  split_ifs at h
  simpa [pure, Except.pure] using h.symm

theorem resumeUpdates_ok {sender : Nat} {s s2 : OracleState}
    (h : resumeUpdates sender s = Except.ok s2) :
    s2 = { s with acceptingUpdates := true } := by
  unfold resumeUpdates at h
  split_ifs at h
  simpa [pure, Except.pure] using h.symm

theorem transferOwnership_ok {sender newOwner : Nat} {s s2 : OracleState}
    (h : transferOwnership sender newOwner s = Except.ok s2) :
    s2 = { s with owner := newOwner } := by
  unfold transferOwnership at h
  split_ifs at h
  simpa [pure, Except.pure] using h.symm

theorem updateFromProofBody_error
    {cfg : OracleConfig} {v : IEVMTransaction.Proof → Bool} {s : OracleState}
    {proof : IEVMTransaction.Proof} {g : Nat} {e : String}
    (h : updateFromProofBody cfg v s proof g = Except.error e) :
    updateFromProof cfg v s proof g = (s, some e) := by
  unfold updateFromProof
  rw [h]

end PoolPriceCustomFeed

/-! ## Helper lemmas about the price computations -/

namespace CustomFeedsBot

theorem rawPrice6_mono (pc : PoolConfig) {a b : Nat} (hab : a ≤ b) :
    rawPrice6 pc a ≤ rawPrice6 pc b := by
  unfold rawPrice6
  have h0 : a * a * 10 ^ 18 / (2 ^ 96 * 2 ^ 96) ≤
      b * b * 10 ^ 18 / (2 ^ 96 * 2 ^ 96) :=
    Nat.div_le_div_right (Nat.mul_le_mul_right _ (Nat.mul_le_mul hab hab))
  split_ifs with h1 h2
  · exact Nat.div_le_div_right (Nat.mul_le_mul_right _ h0)
  · exact Nat.div_le_div_right (Nat.div_le_div_right h0)
  · exact Nat.div_le_div_right h0

theorem calc_mono_noinv (pc : PoolConfig) (hinv : pc.invertPrice = false)
    {a b : Nat} (hab : a ≤ b) :
    calculatePrice pc a ≤ calculatePrice pc b := by
  unfold calculatePrice
  simp only [hinv, false_and, if_false, Bool.false_eq_true]
  exact rawPrice6_mono pc hab

theorem calc_anti_inv (pc : PoolConfig) (hinv : pc.invertPrice = true)
    {a b : Nat} (hab : a ≤ b) (hpos : 0 < rawPrice6 pc a) :
    calculatePrice pc b ≤ calculatePrice pc a := by
  have hb : 0 < rawPrice6 pc b := lt_of_lt_of_le hpos (rawPrice6_mono pc hab)
  unfold calculatePrice
  simp only [hinv, true_and, ne_eq]
  rw [if_pos hpos.ne', if_pos hb.ne']
  exact Nat.div_le_div_left (rawPrice6_mono pc hab) hpos

theorem calc_eq_formula_of_eq_decimals (pc : PoolConfig)
    (heq : pc.token0Decimals = pc.token1Decimals)
    (hinv : pc.invertPrice = false) (s : Nat) :
    calculatePrice pc s = s * s * 10 ^ 18 / 2 ^ 192 / 10 ^ 12 := by
  unfold calculatePrice rawPrice6
  simp only [heq, lt_self_iff_false, if_false, hinv, false_and,
    Bool.false_eq_true, gt_iff_lt]
  norm_num

end CustomFeedsBot

namespace PoolPriceCustomFeed

theorem calc_sol_exact_of_no_overflow (cfg : OracleConfig)
    (heq : cfg.token0Decimals = cfg.token1Decimals)
    (hinv : cfg.invertPrice = false) (s : Nat)
    (hov : s * s * 10 ^ 18 < 2 ^ 256)
    (h0 : 0 < s * s * 10 ^ 18 / 2 ^ 192 / 10 ^ 12)
    (hlt : s * s * 10 ^ 18 / 2 ^ 192 / 10 ^ 12 < 2 ^ 128 - 1) :
    calculatePrice cfg s = Except.ok (s * s * 10 ^ 18 / 2 ^ 192 / 10 ^ 12) := by
  have hsq : s * s < 2 ^ 256 :=
    lt_of_le_of_lt (Nat.le_mul_of_pos_right _ (by norm_num)) hov
  have hden : (2 : Nat) ^ 96 * 2 ^ 96 = 2 ^ 192 := by norm_num
  unfold calculatePrice checkedU256
  rw [if_pos hsq]
  simp only [Bind.bind, Except.bind]
  rw [if_pos hov]
  simp only [heq, lt_self_iff_false, if_false, gt_iff_lt, hden]
  simp only [pure, Except.pure, hinv, false_and, if_false, Bool.false_eq_true]
  rw [if_neg h0.ne', if_neg (fun hc => hc hlt)]

theorem purePrice_unfolded (cfg : OracleConfig) (s : Nat) :
    purePrice cfg s =
      (if cfg.invertPrice ∧
          (if cfg.token0Decimals > cfg.token1Decimals then
             s * s * 10 ^ 18 / (2 ^ 96 * 2 ^ 96) *
               10 ^ (cfg.token0Decimals - cfg.token1Decimals)
           else if cfg.token1Decimals > cfg.token0Decimals then
             s * s * 10 ^ 18 / (2 ^ 96 * 2 ^ 96) /
               10 ^ (cfg.token1Decimals - cfg.token0Decimals)
           else s * s * 10 ^ 18 / (2 ^ 96 * 2 ^ 96)) / 10 ^ 12 ≠ 0
        then 10 ^ 12 /
          ((if cfg.token0Decimals > cfg.token1Decimals then
             s * s * 10 ^ 18 / (2 ^ 96 * 2 ^ 96) *
               10 ^ (cfg.token0Decimals - cfg.token1Decimals)
           else if cfg.token1Decimals > cfg.token0Decimals then
             s * s * 10 ^ 18 / (2 ^ 96 * 2 ^ 96) /
               10 ^ (cfg.token1Decimals - cfg.token0Decimals)
           else s * s * 10 ^ 18 / (2 ^ 96 * 2 ^ 96)) / 10 ^ 12)
        else (if cfg.token0Decimals > cfg.token1Decimals then
             s * s * 10 ^ 18 / (2 ^ 96 * 2 ^ 96) *
               10 ^ (cfg.token0Decimals - cfg.token1Decimals)
           else if cfg.token1Decimals > cfg.token0Decimals then
             s * s * 10 ^ 18 / (2 ^ 96 * 2 ^ 96) /
               10 ^ (cfg.token1Decimals - cfg.token0Decimals)
           else s * s * 10 ^ 18 / (2 ^ 96 * 2 ^ 96)) / 10 ^ 12) := rfl

/-- `_calculatePrice` either returns exactly the ideal value — which then
passed the positivity and `uint128` sanity checks — or reverts. -/
theorem calc_sol_cases (cfg : OracleConfig) (s : Nat) :
    (0 < purePrice cfg s ∧ purePrice cfg s < 2 ^ 128 - 1 ∧
      calculatePrice cfg s = Except.ok (purePrice cfg s)) ∨
    ∃ e, calculatePrice cfg s = Except.error e := by
  have hP := purePrice_unfolded cfg s
  unfold calculatePrice checkedU256
  by_cases h1 : s * s < 2 ^ 256
  case neg =>
    exact Or.inr ⟨"panic: arithmetic overflow",
      by simp only [if_neg h1, Bind.bind, Except.bind]⟩
  by_cases h2 : s * s * 10 ^ 18 < 2 ^ 256
  case neg =>
    exact Or.inr ⟨"panic: arithmetic overflow",
      by simp only [if_pos h1, if_neg h2, Bind.bind, Except.bind]⟩
  simp only [if_pos h1, if_pos h2, Bind.bind, Except.bind]
  by_cases h3 : cfg.token0Decimals > cfg.token1Decimals
  · simp only [if_pos h3] at hP ⊢
    by_cases h4 : 10 ^ (cfg.token0Decimals - cfg.token1Decimals) < 2 ^ 256
    case neg =>
      exact Or.inr ⟨"panic: arithmetic overflow",
        by simp only [if_neg h4, Bind.bind, Except.bind]⟩
    by_cases h5 : s * s * 10 ^ 18 / (2 ^ 96 * 2 ^ 96) *
        10 ^ (cfg.token0Decimals - cfg.token1Decimals) < 2 ^ 256
    case neg =>
      exact Or.inr ⟨"panic: arithmetic overflow",
        by simp only [if_pos h4, if_neg h5, Bind.bind, Except.bind]⟩
    simp only [if_pos h4, if_pos h5, Bind.bind, Except.bind]
    rw [← hP]
    by_cases hz : purePrice cfg s = 0
    · exact Or.inr ⟨"Price must be positive", by rw [if_pos hz]⟩
    · by_cases hlt : purePrice cfg s < 2 ^ 128 - 1
      · refine Or.inl ⟨Nat.pos_of_ne_zero hz, hlt, ?_⟩
        simp only [if_neg hz, if_neg (not_not_intro hlt), pure, Except.pure]
      · exact Or.inr ⟨"Price exceeds maximum", by rw [if_neg hz, if_pos hlt]⟩
  · simp only [if_neg h3] at hP ⊢
    by_cases h3b : cfg.token1Decimals > cfg.token0Decimals
    · simp only [if_pos h3b] at hP ⊢
      by_cases h4 : 10 ^ (cfg.token1Decimals - cfg.token0Decimals) < 2 ^ 256
      case neg =>
        exact Or.inr ⟨"panic: arithmetic overflow",
          by simp only [if_neg h4, Bind.bind, Except.bind]⟩
      simp only [if_pos h4, Bind.bind, Except.bind, pure, Except.pure]
      rw [← hP]
      by_cases hz : purePrice cfg s = 0
      · exact Or.inr ⟨"Price must be positive", by rw [if_pos hz]⟩
      · by_cases hlt : purePrice cfg s < 2 ^ 128 - 1
        · refine Or.inl ⟨Nat.pos_of_ne_zero hz, hlt, ?_⟩
          simp only [if_neg hz, if_neg (not_not_intro hlt)]
        · exact Or.inr ⟨"Price exceeds maximum", by rw [if_neg hz, if_pos hlt]⟩
    · simp only [if_neg h3b] at hP ⊢
      simp only [Bind.bind, Except.bind, pure, Except.pure]
      rw [← hP]
      by_cases hz : purePrice cfg s = 0
      · exact Or.inr ⟨"Price must be positive", by rw [if_pos hz]⟩
      · by_cases hlt : purePrice cfg s < 2 ^ 128 - 1
        · refine Or.inl ⟨Nat.pos_of_ne_zero hz, hlt, ?_⟩
          simp only [if_neg hz, if_neg (not_not_intro hlt)]
        · exact Or.inr ⟨"Price exceeds maximum", by rw [if_neg hz, if_pos hlt]⟩

/-- A value returned by `_calculatePrice` is the ideal value and lies
strictly between the sanity bounds. -/
theorem calc_sol_ok {cfg : OracleConfig} {s p : Nat}
    (h : calculatePrice cfg s = Except.ok p) :
    p = purePrice cfg s ∧ 0 < p ∧ p < 2 ^ 128 - 1 := by
  rcases calc_sol_cases cfg s with ⟨h0, hlt, heq⟩ | ⟨e, he⟩
  · rw [h] at heq
    obtain rfl : p = purePrice cfg s := by
      simpa using heq
    exact ⟨rfl, h0, hlt⟩
  · rw [h] at he
    exact absurd he (by simp)

/-- If the ideal price is zero or at least `2^128`, `_calculatePrice`
reverts. -/
theorem calc_sol_error_of_pure_bad (cfg : OracleConfig) (s : Nat)
    (hbad : purePrice cfg s = 0 ∨ 2 ^ 128 ≤ purePrice cfg s) :
    ∃ e, calculatePrice cfg s = Except.error e := by
  rcases calc_sol_cases cfg s with ⟨h0, hlt, _⟩ | he
  · exact absurd hbad (by omega)
  · exact he

theorem parseEvents_of_found {cfg : OracleConfig} :
    ∀ {events : List IEVMTransaction.Event} {evt : IEVMTransaction.Event},
    findPriceEvent cfg events = some evt →
    parseEvents cfg events =
      (match evt.topics with
       | _ :: t1 :: _ =>
         if t1 % 2 ^ 160 ≠ cfg.poolAddress then Except.error "Wrong pool"
         else do
           let price ← calculatePrice cfg evt.data.sqrtPriceX96
           pure (price, evt.data.eventTimestamp % 2 ^ 64)
       | _ => Except.error "panic: array out of bounds")
  | [], evt => by
    intro h
    simp [findPriceEvent] at h
  | e :: rest, evt => by
    intro h
    unfold findPriceEvent at h
    unfold parseEvents
    by_cases hemit : e.emitterAddress ≠ cfg.priceRecorderAddress
    · rw [if_pos hemit] at h
      rw [if_pos hemit]
      exact parseEvents_of_found h
    · rw [if_neg hemit] at h
      rw [if_neg hemit]
      rcases htop : e.topics with _ | ⟨t0, ts⟩
      · rw [htop] at h
        exact parseEvents_of_found h
      · rw [htop] at h
        by_cases ht0 : t0 ≠ PRICE_RECORDED_TOPIC
        · have h2 : findPriceEvent cfg rest = some evt := by
            simpa [if_pos ht0] using h
          simp only [if_pos ht0]
          exact parseEvents_of_found h2
        · have he : e = evt := by
            simpa [if_neg ht0] using h
          subst he
          simp only [if_neg ht0]
          rw [htop]
          rcases ts with _ | ⟨t1, ts1⟩
          · rfl
          · rfl

theorem parseEvents_ok_price {cfg : OracleConfig} :
    ∀ {events : List IEVMTransaction.Event} {pr ts : Nat},
    parseEvents cfg events = Except.ok (pr, ts) →
    ∃ q, calculatePrice cfg q = Except.ok pr
  | [], pr, ts => by
    intro h
    simp [parseEvents] at h
  | e :: rest, pr, ts => by
    intro h
    unfold parseEvents at h
    by_cases hemit : e.emitterAddress ≠ cfg.priceRecorderAddress
    · rw [if_pos hemit] at h
      exact parseEvents_ok_price h
    · rw [if_neg hemit] at h
      rcases htop : e.topics with _ | ⟨t0, ts0⟩
      · rw [htop] at h
        exact parseEvents_ok_price h
      · rw [htop] at h
        by_cases ht0 : t0 ≠ PRICE_RECORDED_TOPIC
        · have h2 : parseEvents cfg rest = Except.ok (pr, ts) := by
            simpa [if_pos ht0] using h
          exact parseEvents_ok_price h2
        · replace h : (match ts0 with
              | [] => (Except.error "panic: array out of bounds" : Except String (Nat × Nat))
              | t1 :: _ =>
                if t1 % 2 ^ 160 ≠ cfg.poolAddress then Except.error "Wrong pool"
                else do
                  let price ← calculatePrice cfg e.data.sqrtPriceX96
                  pure (price, e.data.eventTimestamp % 2 ^ 64)) =
              Except.ok (pr, ts) := by
            simpa [if_neg ht0] using h
          rcases ts0 with _ | ⟨t1, ts1⟩
          · exact absurd h (by simp)
          · by_cases hpool : t1 % 2 ^ 160 ≠ cfg.poolAddress
            · simp only [if_pos hpool] at h
              exact absurd h (by simp)
            · simp only [if_neg hpool] at h
              cases hc : calculatePrice cfg e.data.sqrtPriceX96 with
              | error err =>
                rw [hc] at h
                exact absurd h (by simp [Bind.bind, Except.bind])
              | ok p =>
                rw [hc] at h
                simp only [Bind.bind, Except.bind, pure, Except.pure,
                  Except.ok.injEq, Prod.mk.injEq] at h
                exact ⟨e.data.sqrtPriceX96, by rw [hc, h.1]⟩

end PoolPriceCustomFeed

/-! ## Helper lemmas about the scheduler and the finalization poll -/

namespace CustomFeedsBot

theorem tryRecordPrice_skipped {cfg : BotConfig} {env : CycleEnv}
    {st : RecordingStats} (h : ¬ recordEligible cfg env) :
    tryRecordPrice cfg env st = (st, RecordOutcome.skipped, false) := by
  unfold tryRecordPrice
  by_cases hc : env.canUpdate = true
  · rw [if_neg (not_not_intro hc)]
    cases hg : gasPriceGweiOf env.feeData with
    | none => rfl
    | some gwei =>
      have hgt : gwei > cfg.maxGasPriceGwei := by
        by_contra hle
        refine h ⟨hc, ?_⟩
        rw [hg]
        exact not_lt.mp hle
      simp only [if_pos hgt]
  · rw [if_pos hc]

theorem tryRecordPrice_success {cfg : BotConfig} {env : CycleEnv}
    {st : RecordingStats} (he : recordEligible cfg env)
    (hr : env.recordSucceeds = true) :
    tryRecordPrice cfg env st =
      ({ st with successful := st.successful + 1
                 consecutiveFailures := 0
                 totalGasUsed := st.totalGasUsed + env.gasUsed },
       RecordOutcome.recorded env.gasUsed, false) := by
  obtain ⟨hc, hgas⟩ := he
  unfold tryRecordPrice
  rw [if_neg (not_not_intro hc)]
  cases hg : gasPriceGweiOf env.feeData with
  | none => simp [hg] at hgas
  | some gwei =>
    rw [hg] at hgas
    have hle : gwei ≤ cfg.maxGasPriceGwei := hgas
    simp only [if_neg (not_lt.mpr hle), if_pos hr]

theorem tryRecordPrice_failure {cfg : BotConfig} {env : CycleEnv}
    {st : RecordingStats} (he : recordEligible cfg env)
    (hr : env.recordSucceeds = false) :
    tryRecordPrice cfg env st =
      ({ st with failed := st.failed + 1
                 consecutiveFailures := st.consecutiveFailures + 1 },
       RecordOutcome.recordFailed,
       decide (10 ≤ st.consecutiveFailures + 1)) := by
  obtain ⟨hc, hgas⟩ := he
  unfold tryRecordPrice
  rw [if_neg (not_not_intro hc)]
  cases hg : gasPriceGweiOf env.feeData with
  | none => simp [hg] at hgas
  | some gwei =>
    rw [hg] at hgas
    have hle : gwei ≤ cfg.maxGasPriceGwei := hgas
    simp only [if_neg (not_lt.mpr hle),
      if_neg (show ¬ env.recordSucceeds = true from by simp [hr])]

theorem cycleStep_reaches {cfg : BotConfig} {st : BotState} {env : CycleEnv}
    (hbal : checkBalance cfg (st.cycleCount + 1) env.balanceFLR = false)
    (hpools : cfg.pools ≠ []) :
    cycleStep cfg st env =
      (match tryRecordPrice cfg env st.recording with
       | (rec2, RecordOutcome.skipped, _) =>
         ({ st with cycleCount := st.cycleCount + 1
                    currentPoolIndex := (st.currentPoolIndex + 1) % cfg.pools.length
                    recording := rec2 },
          { attemptedRecording := false })
       | (rec2, RecordOutcome.recorded _, _) =>
         ({ st with cycleCount := st.cycleCount + 1
                    currentPoolIndex := (st.currentPoolIndex + 1) % cfg.pools.length
                    recording := rec2
                    attestation :=
                      tryAttest cfg env.attestAttemptSucceeds st.attestation },
          { attemptedRecording := true })
       | (rec2, RecordOutcome.recordFailed, halted) =>
         ({ st with cycleCount := st.cycleCount + 1
                    currentPoolIndex := (st.currentPoolIndex + 1) % cfg.pools.length
                    recording := rec2
                    isRunning := !halted },
          { attemptedRecording := true })) := by
  unfold cycleStep
  rw [if_neg (by simp [hbal]), if_neg (by simp [List.isEmpty_iff, hpools])]

theorem runLoop_halted {cfg : BotConfig} {st : BotState}
    (h : st.isRunning = false) :
    ∀ envs, runLoop cfg st envs = (st, [])
  | [] => rfl
  | env :: rest => by
    unfold runLoop
    rw [if_pos (by simp [h])]

end CustomFeedsBot

theorem waitForFinalizationFrom_true_iff (isFin : Nat → Bool) (max : Nat) :
    ∀ (n e : Nat), max - e ≤ n →
      (waitForFinalizationFrom isFin max e = true ↔
        ∃ k, e + 10 * k < max ∧ isFin (e + 10 * k) = true)
  | 0, e => by
    intro he
    unfold waitForFinalizationFrom
    have hnot : ¬ e < max := by omega
    rw [dif_neg hnot]
    constructor
    · intro h
      exact absurd h (by simp)
    · rintro ⟨k, hk, -⟩
      omega
  | n + 1, e => by
    intro he
    unfold waitForFinalizationFrom
    by_cases hlt : e < max
    · rw [dif_pos hlt]
      by_cases hf : isFin e = true
      · rw [if_pos hf]
        constructor
        · intro _
          exact ⟨0, by simpa using hlt, by simpa using hf⟩
        · intro _
          rfl
      · rw [if_neg hf]
        rw [waitForFinalizationFrom_true_iff isFin max n (e + 10) (by omega)]
        constructor
        · rintro ⟨k, hk, hfk⟩
          refine ⟨k + 1, by omega, ?_⟩
          rw [show e + 10 * (k + 1) = e + 10 + 10 * k by ring]
          exact hfk
        · rintro ⟨k, hk, hfk⟩
          cases k with
          | zero =>
            exact absurd (by simpa using hfk) hf
          | succ k =>
            refine ⟨k, by omega, ?_⟩
            rw [show e + 10 + 10 * k = e + 10 * (k + 1) by ring]
            exact hfk
    · rw [dif_neg hlt]
      constructor
      · intro h
        exact absurd h (by simp)
      · rintro ⟨k, hk, -⟩
        omega

/-! ## Claims -/

open PoolPriceCustomFeed CustomFeedsBot

/-- **C2, counterexample.** The claim demands, for every `sqrtPriceX96` in
the `uint160` range with equal decimals and no inversion, that the price
computation return exactly `floor(sqrtPriceX96^2 * 10^18 / 2^192) / 10^12`
"computed in arbitrary-precision unsigned integer arithmetic without
overflow".  The on-chain `_calculatePrice` works in checked `uint256`
arithmetic instead: at `sqrtPriceX96 = 2^130` (inside the `uint160` range)
the multiplication `sqrtPriceX96 * sqrtPriceX96` exceeds `2^256` and the
call reverts with an arithmetic-overflow panic instead of returning the
claimed (representable) value. -/
theorem c2_counterexample_contract_overflow :
    PoolPriceCustomFeed.calculatePrice Ex.cfg66 (2 ^ 130) ≠
      Except.ok (2 ^ 130 * 2 ^ 130 * 10 ^ 18 / 2 ^ 192 / 10 ^ 12) := by
  have h : PoolPriceCustomFeed.calculatePrice Ex.cfg66 (2 ^ 130) =
      Except.error "panic: arithmetic overflow" := by rfl
  rw [h]
  simp

/-- **C2, amended.** With equal token decimals and no inversion:
(1) the off-chain bot BigInt computation returns exactly
`sqrtPriceX96^2 * 10^18 / 2^192 / 10^12` (truncating division) for every
`sqrtPriceX96` in the `uint160` range — true arbitrary-precision
arithmetic; (2) the on-chain `_calculatePrice` returns that same exact
value whenever the intermediate product `sqrtPriceX96^2 * 10^18` fits in
`uint256` and the result passes the positivity and `< uint128.max` sanity
checks; outside those bounds it reverts. -/
theorem c2_amended_price_exactness :
    (∀ (pc : PoolConfig), pc.token0Decimals = pc.token1Decimals →
      pc.invertPrice = false → ∀ s, s < 2 ^ 160 →
      CustomFeedsBot.calculatePrice pc s =
        s * s * 10 ^ 18 / 2 ^ 192 / 10 ^ 12) ∧
    (∀ (cfg : OracleConfig), cfg.token0Decimals = cfg.token1Decimals →
      cfg.invertPrice = false → ∀ s, s < 2 ^ 160 →
      s * s * 10 ^ 18 < 2 ^ 256 →
      0 < s * s * 10 ^ 18 / 2 ^ 192 / 10 ^ 12 →
      s * s * 10 ^ 18 / 2 ^ 192 / 10 ^ 12 < 2 ^ 128 - 1 →
      PoolPriceCustomFeed.calculatePrice cfg s =
        Except.ok (s * s * 10 ^ 18 / 2 ^ 192 / 10 ^ 12)) :=
  ⟨fun pc heq hinv s _ => calc_eq_formula_of_eq_decimals pc heq hinv s,
   fun cfg heq hinv s _ hov h0 hlt =>
     calc_sol_exact_of_no_overflow cfg heq hinv s hov h0 hlt⟩

/-- Witness for the amended C2 at the spec end-to-end value: a 1:1 pool
(`sqrtPriceX96 = 2^96`, equal decimals, no inversion) yields exactly
`1000000` on both the bot and the contract paths. -/
theorem c2_witness :
    CustomFeedsBot.calculatePrice Ex.pc66 (2 ^ 96) =
      2 ^ 96 * 2 ^ 96 * 10 ^ 18 / 2 ^ 192 / 10 ^ 12 ∧
    PoolPriceCustomFeed.calculatePrice Ex.cfg66 (2 ^ 96) =
      Except.ok (2 ^ 96 * 2 ^ 96 * 10 ^ 18 / 2 ^ 192 / 10 ^ 12) ∧
    2 ^ 96 * 2 ^ 96 * 10 ^ 18 / 2 ^ 192 / 10 ^ 12 = 1000000 :=
  ⟨c2_amended_price_exactness.1 Ex.pc66 rfl rfl (2 ^ 96) (by norm_num),
   c2_amended_price_exactness.2 Ex.cfg66 rfl rfl (2 ^ 96) (by norm_num)
     (by decide) (by decide) (by decide),
   by decide⟩

/-- **C5, counterexample.** The claim asserts order preservation for every
fixed inversion flag.  With `invertPrice = true` (equal 6/6 decimals) the
computation is order-reversing where positive: at `a = 2^96 ≤ b = 2^97`
the computed prices are `1000000` and `250000`, so
`computePrice a > computePrice b`. -/
theorem c5_counterexample_inverted_antitone :
    (2 : Nat) ^ 96 ≤ 2 ^ 97 ∧
    CustomFeedsBot.calculatePrice Ex.pcInv (2 ^ 97) <
      CustomFeedsBot.calculatePrice Ex.pcInv (2 ^ 96) := by
  refine ⟨by norm_num, ?_⟩
  rw [show CustomFeedsBot.calculatePrice Ex.pcInv (2 ^ 97) = 250000 from rfl,
      show CustomFeedsBot.calculatePrice Ex.pcInv (2 ^ 96) = 1000000 from rfl]
  norm_num

/-- **C5, amended.** For fixed decimals, the price computation is monotone
non-decreasing in `sqrtPriceX96` when `invertPrice = false`; when
`invertPrice = true` it is monotone non-increasing on inputs whose
pre-inversion 6-decimal price is positive (the zero-price special case,
which skips the inversion, breaks global antitonicity). -/
theorem c5_amended_monotonicity :
    (∀ (pc : PoolConfig), pc.invertPrice = false → ∀ a b : Nat, a ≤ b →
      CustomFeedsBot.calculatePrice pc a ≤ CustomFeedsBot.calculatePrice pc b) ∧
    (∀ (pc : PoolConfig), pc.invertPrice = true → ∀ a b : Nat, a ≤ b →
      0 < rawPrice6 pc a →
      CustomFeedsBot.calculatePrice pc b ≤ CustomFeedsBot.calculatePrice pc a) :=
  ⟨fun pc hinv _a _b hab => calc_mono_noinv pc hinv hab,
   fun pc hinv _a _b hab hpos => calc_anti_inv pc hinv hab hpos⟩

/-- Witness for the amended C5 on concrete inputs in both regimes. -/
theorem c5_witness :
    CustomFeedsBot.calculatePrice Ex.pc66 (2 ^ 96) ≤
      CustomFeedsBot.calculatePrice Ex.pc66 (2 ^ 97) ∧
    CustomFeedsBot.calculatePrice Ex.pcInv (2 ^ 97) ≤
      CustomFeedsBot.calculatePrice Ex.pcInv (2 ^ 96) :=
  ⟨c5_amended_monotonicity.1 Ex.pc66 rfl (2 ^ 96) (2 ^ 97) (by norm_num),
   c5_amended_monotonicity.2 Ex.pcInv rfl (2 ^ 96) (2 ^ 97) (by norm_num)
     (by decide)⟩

/-- **C1.** A proof whose response body carries a `receivingAddress`
different from the configured `priceRecorderAddress` is always rejected by
`updateFromProof` — whatever the pause flag, the external FDC verifier
verdict and the rest of the proof — and the rejected (reverted) call leaves
every field of the oracle state unchanged. -/
theorem c1_wrong_contract_rejected_state_unchanged
    (cfg : OracleConfig) (v : IEVMTransaction.Proof → Bool) (s : OracleState)
    (proof : IEVMTransaction.Proof) (g : Nat)
    (h : proof.data.responseBody.receivingAddress ≠ cfg.priceRecorderAddress) :
    (updateFromProof cfg v s proof g).1 = s ∧
    (updateFromProof cfg v s proof g).2.isSome := by
  obtain ⟨e, he⟩ : ∃ e, updateFromProofBody cfg v s proof g = Except.error e := by
    unfold updateFromProofBody
    split_ifs with h1 h2
    all_goals exact ⟨_, rfl⟩
  rw [updateFromProofBody_error he]
  exact ⟨rfl, rfl⟩

/-- Witness for C1: the oracle configured with recorder 11 rejects a proof
addressed to 99 and the state is untouched. -/
theorem c1_witness :
    (updateFromProof Ex.cfg66 Ex.acceptAll Ex.st0 Ex.proofWrongContract 0).1 =
      Ex.st0 ∧
    (updateFromProof Ex.cfg66 Ex.acceptAll Ex.st0 Ex.proofWrongContract 0).2.isSome :=
  c1_wrong_contract_rejected_state_unchanged Ex.cfg66 Ex.acceptAll Ex.st0
    Ex.proofWrongContract 0 (by decide)

/-- **C4.** Two sequential successful `updateFromProof` calls with distinct
proofs increase `updateCount` by exactly 2 and leave `latestValue` and
`lastUpdateTimestamp` equal to the price and (`uint64`-truncated) timestamp
parsed from the second proof.  No hypothesis relates the two proofs
timestamps: the second may be older — there is no recency check. -/
theorem c4_two_updates_last_wins
    (cfg : OracleConfig) (v1 v2 : IEVMTransaction.Proof → Bool)
    (s s1 s2 : OracleState) (p1 p2 : IEVMTransaction.Proof) (g1 g2 : Nat)
    (pr ts : Nat) (_hne : p1 ≠ p2)
    (h1 : updateFromProofBody cfg v1 s p1 g1 = Except.ok s1)
    (h2 : updateFromProofBody cfg v2 s1 p2 g2 = Except.ok s2)
    (hp : parseEvents cfg p2.data.responseBody.events = Except.ok (pr, ts)) :
    s2.updateCount = s.updateCount + 2 ∧ s2.latestValue = pr ∧
    s2.lastUpdateTimestamp = ts := by
  obtain ⟨-, -, -, -, pr1, ts1, hp1, hs1⟩ := updateFromProofBody_ok h1
  obtain ⟨-, -, -, -, pr2, ts2, hp2, hs2⟩ := updateFromProofBody_ok h2
  rw [hp] at hp2
  obtain ⟨rfl, rfl⟩ : pr2 = pr ∧ ts2 = ts := by
    have := hp2
    simp only [Except.ok.injEq, Prod.mk.injEq] at this
    exact ⟨this.1.symm, this.2.symm⟩
  subst hs1 hs2
  exact ⟨rfl, rfl, rfl⟩

/-- Witness for C4: two concrete valid proofs, the second carrying an older
timestamp (1000 < 2000), drive the fresh oracle to `updateCount = 2` with
the second proof price and timestamp stored. -/
theorem c4_witness :
    Ex.st2.updateCount = Ex.st0.updateCount + 2 ∧
    Ex.st2.latestValue = 4000000 ∧ Ex.st2.lastUpdateTimestamp = 1000 :=
  c4_two_updates_last_wins Ex.cfg66 Ex.acceptAll Ex.acceptAll Ex.st0 Ex.st1
    Ex.st2 Ex.proofA Ex.proofB 0 0 4000000 1000 (by decide) (by rfl) (by rfl)
    (by rfl)

/-- **C9.** In every reachable oracle state, `updateCount` equals
`totalProofsVerified`; both are zero at deployment, and a successful
`updateFromProof` — the only mutator of either — increments both by exactly
one. -/
theorem c9_updateCount_eq_totalProofsVerified :
    (∀ (cfg : OracleConfig) (s : OracleState), Reachable cfg s →
      s.updateCount = s.totalProofsVerified) ∧
    (∀ d, (initialState d).updateCount = 0 ∧
      (initialState d).totalProofsVerified = 0) ∧
    (∀ (cfg : OracleConfig) (v : IEVMTransaction.Proof → Bool)
      (s : OracleState) (proof : IEVMTransaction.Proof) (g : Nat)
      (s2 : OracleState), updateFromProofBody cfg v s proof g = Except.ok s2 →
      s2.updateCount = s.updateCount + 1 ∧
      s2.totalProofsVerified = s.totalProofsVerified + 1) := by
  refine ⟨?_, fun d => ⟨rfl, rfl⟩, ?_⟩
  · intro cfg s h
    induction h with
    | init d => rfl
    | update v proof g _ hok ih =>
      obtain ⟨-, -, -, -, pr, ts, -, hs2⟩ := updateFromProofBody_ok hok
      subst hs2
      simpa using ih
    | pause sender _ hok ih => rw [pauseUpdates_ok hok]; exact ih
    | resume sender _ hok ih => rw [resumeUpdates_ok hok]; exact ih
    | transfer sender newOwner _ hok ih =>
      rw [transferOwnership_ok hok]; exact ih
  · intro cfg v s proof g s2 hok
    obtain ⟨-, -, -, -, pr, ts, -, hs2⟩ := updateFromProofBody_ok hok
    subst hs2
    exact ⟨rfl, rfl⟩

/-- Witness for C9: the invariant evaluated on a concrete reachable state
(one successful update from a fresh deployment), and the increment property
on that same concrete call. -/
theorem c9_witness :
    Ex.st1.updateCount = Ex.st1.totalProofsVerified ∧
    Ex.st1.updateCount = Ex.st0.updateCount + 1 ∧
    Ex.st1.totalProofsVerified = Ex.st0.totalProofsVerified + 1 :=
  ⟨c9_updateCount_eq_totalProofsVerified.1 Ex.cfg66 Ex.st1
      (Reachable.update Ex.acceptAll Ex.proofA 0 (Reachable.init 7) (by rfl)),
   c9_updateCount_eq_totalProofsVerified.2.2 Ex.cfg66 Ex.acceptAll Ex.st0
      Ex.proofA 0 Ex.st1 (by rfl)⟩

/-- **C10.** `read()` and `getCurrentFeed()` revert with "No data available"
exactly when `latestValue` is zero — in particular on a freshly deployed
feed, whose `latestValue` is zero — and when `latestValue` is positive,
`read()` returns exactly `latestValue` and `getCurrentFeed()` returns it
with the decimals constant and `lastUpdateTimestamp`.  Both are view-style
bodies with no storage write. -/
theorem c10_read_no_data (s : OracleState) :
    (s.latestValue = 0 →
      read s = Except.error "No data available" ∧
      getCurrentFeed s = Except.error "No data available") ∧
    (0 < s.latestValue →
      read s = Except.ok s.latestValue ∧
      getCurrentFeed s =
        Except.ok (s.latestValue, DECIMALS, s.lastUpdateTimestamp)) ∧
    (∀ d, (initialState d).latestValue = 0) := by
  refine ⟨fun h0 => ?_, fun hpos => ?_, fun d => rfl⟩
  · constructor <;> simp [PoolPriceCustomFeed.read, getCurrentFeed, h0]
  · constructor <;> simp [PoolPriceCustomFeed.read, getCurrentFeed, hpos]

/-- Witness for C10: the fresh deployment rejects reads; after one update
the stored value is read back verbatim. -/
theorem c10_witness :
    (read Ex.st0 = Except.error "No data available" ∧
      getCurrentFeed Ex.st0 = Except.error "No data available") ∧
    (read Ex.st1 = Except.ok 1000000 ∧
      getCurrentFeed Ex.st1 = Except.ok (1000000, DECIMALS, 2000)) :=
  ⟨(c10_read_no_data Ex.st0).1 rfl, (c10_read_no_data Ex.st1).2.1 (by decide)⟩

/-- **C3.** The oracle never commits a zero or out-of-range price.
(1) Whenever the event `_parseEvents` locks onto carries a recorded
square-root price whose ideal computed price is `0` or at least `2^128`,
the whole `updateFromProof` call reverts and the state is unchanged.
(2) In every reachable state `latestValue` is either `0` (no update yet)
or lies strictly inside `(0, 2^128)`. -/
theorem c3_zero_or_out_of_range_rejected :
    (∀ (cfg : OracleConfig) (v : IEVMTransaction.Proof → Bool)
       (s : OracleState) (proof : IEVMTransaction.Proof) (g : Nat)
       (evt : IEVMTransaction.Event),
       findPriceEvent cfg proof.data.responseBody.events = some evt →
       purePrice cfg evt.data.sqrtPriceX96 = 0 ∨
         2 ^ 128 ≤ purePrice cfg evt.data.sqrtPriceX96 →
       (updateFromProof cfg v s proof g).1 = s ∧
       (updateFromProof cfg v s proof g).2.isSome) ∧
    (∀ (cfg : OracleConfig) (s : OracleState), Reachable cfg s →
       s.latestValue = 0 ∨ (0 < s.latestValue ∧ s.latestValue < 2 ^ 128)) := by
  constructor
  · intro cfg v s proof g evt hfound hbad
    obtain ⟨e, he⟩ : ∃ e, updateFromProofBody cfg v s proof g =
        Except.error e := by
      unfold updateFromProofBody
      by_cases h1 : s.acceptingUpdates = true
      case neg => exact ⟨_, by rw [if_pos h1]⟩
      rw [if_neg (not_not_intro h1)]
      by_cases h2 : v proof = true
      case neg => exact ⟨_, by rw [if_pos h2]⟩
      rw [if_neg (not_not_intro h2)]
      by_cases h3 : proof.data.responseBody.receivingAddress ≠
        cfg.priceRecorderAddress
      case pos => exact ⟨_, by rw [if_pos h3]⟩
      rw [if_neg h3]
      by_cases h4 : proof.data.responseBody.status ≠ 1
      case pos => exact ⟨_, by rw [if_pos h4]⟩
      rw [if_neg h4]
      rw [parseEvents_of_found hfound]
      rcases htop : evt.topics with _ | ⟨t0, _ | ⟨t1, ts2⟩⟩
      · exact ⟨"panic: array out of bounds",
          by simp only [Bind.bind, Except.bind]⟩
      · exact ⟨"panic: array out of bounds",
          by simp only [Bind.bind, Except.bind]⟩
      · by_cases hpool : t1 % 2 ^ 160 ≠ cfg.poolAddress
        · exact ⟨"Wrong pool",
            by simp only [if_pos hpool, Bind.bind, Except.bind]⟩
        · obtain ⟨ec, hce⟩ :=
            calc_sol_error_of_pure_bad cfg evt.data.sqrtPriceX96 hbad
          exact ⟨ec,
            by simp only [if_neg hpool, hce, Bind.bind, Except.bind]⟩
    rw [updateFromProofBody_error he]
    exact ⟨rfl, rfl⟩
  · intro cfg s h
    induction h with
    | init d => exact Or.inl rfl
    | update v proof g _ hok ih =>
      obtain ⟨-, -, -, -, pr, tsv, hp, hs2⟩ := updateFromProofBody_ok hok
      subst hs2
      obtain ⟨q, hq⟩ := parseEvents_ok_price hp
      obtain ⟨-, hpos, hlt⟩ := calc_sol_ok hq
      have hlt2 : pr < 2 ^ 128 := by omega
      exact Or.inr ⟨hpos, hlt2⟩
    | pause sender _ hok ih => rw [pauseUpdates_ok hok]; exact ih
    | resume sender _ hok ih => rw [resumeUpdates_ok hok]; exact ih
    | transfer sender newOwner _ hok ih =>
      rw [transferOwnership_ok hok]; exact ih

/-- Witness for C3: a proof whose event records a zero square-root price is
rejected with the fresh oracle state untouched, and the fresh state
satisfies the range invariant. -/
theorem c3_witness :
    ((updateFromProof Ex.cfg66 Ex.acceptAll Ex.st0 Ex.proofZeroPrice 0).1 =
       Ex.st0 ∧
     (updateFromProof Ex.cfg66 Ex.acceptAll Ex.st0 Ex.proofZeroPrice 0).2.isSome) ∧
    (Ex.st0.latestValue = 0 ∨
      (0 < Ex.st0.latestValue ∧ Ex.st0.latestValue < 2 ^ 128)) :=
  ⟨c3_zero_or_out_of_range_rejected.1 Ex.cfg66 Ex.acceptAll Ex.st0
      Ex.proofZeroPrice 0 Ex.evtZero (by rfl) (Or.inl (by rfl)),
   c3_zero_or_out_of_range_rejected.2 Ex.cfg66 Ex.st0 (Reachable.init 7)⟩

/-- **C6.** The circuit breaker counts only consecutive recording
failures, globally (one counter shared by all feeds):
(1) any successful recording resets the counter to zero — whatever the
attestation attempts of the same cycle do;
(2) a failed recording increments the counter by one and leaves the
attestation counters untouched;
(3) once the counter reaches the threshold 10, the cycle halts the bot;
(4) a halted bot runs no further cycle: for every suffix of environments
the loop produces no further observation — in particular no recording
attempt for any feed. -/
theorem c6_circuit_breaker :
    (∀ (cfg : BotConfig) (st : BotState) (env : CycleEnv),
      cycleReachesRecording cfg st env → recordEligible cfg env →
      env.recordSucceeds = true →
      ((cycleStep cfg st env).1).recording.consecutiveFailures = 0) ∧
    (∀ (cfg : BotConfig) (st : BotState) (env : CycleEnv),
      cycleReachesRecording cfg st env → recordEligible cfg env →
      env.recordSucceeds = false →
      ((cycleStep cfg st env).1).recording.consecutiveFailures =
        st.recording.consecutiveFailures + 1 ∧
      ((cycleStep cfg st env).1).attestation = st.attestation) ∧
    (∀ (cfg : BotConfig) (st : BotState) (env : CycleEnv),
      cycleReachesRecording cfg st env → recordEligible cfg env →
      env.recordSucceeds = false →
      10 ≤ st.recording.consecutiveFailures + 1 →
      ((cycleStep cfg st env).1).isRunning = false) ∧
    (∀ (cfg : BotConfig) (st : BotState) (envs : List CycleEnv),
      st.isRunning = false → runLoop cfg st envs = (st, [])) := by
  refine ⟨?_, ?_, ?_, fun cfg st envs h => runLoop_halted h envs⟩
  · rintro cfg st env ⟨hbal, hpools⟩ he hr
    rw [cycleStep_reaches hbal hpools, tryRecordPrice_success he hr]
  · rintro cfg st env ⟨hbal, hpools⟩ he hr
    rw [cycleStep_reaches hbal hpools, tryRecordPrice_failure he hr]
    exact ⟨rfl, rfl⟩
  · rintro cfg st env ⟨hbal, hpools⟩ he hr hge
    rw [cycleStep_reaches hbal hpools, tryRecordPrice_failure he hr,
      decide_eq_true hge]
    rfl

/-- Witness for C6 on concrete data: a success resets the counter of a bot
with nine consecutive failures; a tenth failure halts it; a halted bot
ignores every further environment. -/
theorem c6_witness :
    ((cycleStep Ex.cfgBot Ex.botSt9 Ex.envGasAtCeiling).1).recording.consecutiveFailures = 0 ∧
    ((cycleStep Ex.cfgBot Ex.botSt9 Ex.envRecordFails).1).recording.consecutiveFailures = 10 ∧
    ((cycleStep Ex.cfgBot Ex.botSt9 Ex.envRecordFails).1).isRunning = false ∧
    runLoop Ex.cfgBot Ex.botHalted [Ex.envRecordFails, Ex.envGasAtCeiling] =
      (Ex.botHalted, []) := by
  have hreachA : cycleReachesRecording Ex.cfgBot Ex.botSt9 Ex.envGasAtCeiling :=
    ⟨rfl, by simp [Ex.cfgBot]⟩
  have hreachB : cycleReachesRecording Ex.cfgBot Ex.botSt9 Ex.envRecordFails :=
    ⟨rfl, by simp [Ex.cfgBot]⟩
  have heligA : recordEligible Ex.cfgBot Ex.envGasAtCeiling := by
    refine ⟨rfl, ?_⟩
    have hg : gasPriceGweiOf Ex.envGasAtCeiling.feeData = some 50 := by
      norm_num [gasPriceGweiOf, Ex.envGasAtCeiling]
    rw [hg]
    norm_num [Ex.cfgBot]
  have heligB : recordEligible Ex.cfgBot Ex.envRecordFails := by
    refine ⟨rfl, ?_⟩
    have hg : gasPriceGweiOf Ex.envRecordFails.feeData = some 25 := by
      norm_num [gasPriceGweiOf, Ex.envRecordFails]
    rw [hg]
    norm_num [Ex.cfgBot]
  refine ⟨c6_circuit_breaker.1 Ex.cfgBot Ex.botSt9 Ex.envGasAtCeiling hreachA
      heligA rfl, ?_, ?_, ?_⟩
  · exact (c6_circuit_breaker.2.1 Ex.cfgBot Ex.botSt9 Ex.envRecordFails
      hreachB heligB rfl).1
  · exact c6_circuit_breaker.2.2.1 Ex.cfgBot Ex.botSt9 Ex.envRecordFails
      hreachB heligB rfl (by norm_num [Ex.botSt9])
  · exact c6_circuit_breaker.2.2.2 Ex.cfgBot Ex.botHalted
      [Ex.envRecordFails, Ex.envGasAtCeiling] rfl

/-- **C7, counterexample.** The claim says a feed is skipped whenever the
gas price is "not below" the ceiling.  The code skips only when the gas
price is strictly above the ceiling (`gasPriceGwei > MAX_GAS_PRICE_GWEI`):
with the gas price exactly equal to the 50 gwei ceiling, a recording
transaction is attempted (and here succeeds) instead of being skipped. -/
theorem c7_counterexample_gas_at_ceiling :
    gasPriceGweiOf Ex.envGasAtCeiling.feeData =
      some Ex.cfgBot.maxGasPriceGwei ∧
    (tryRecordPrice Ex.cfgBot Ex.envGasAtCeiling Ex.recStats0).2.1 =
      RecordOutcome.recorded 100000 := by
  have hg : gasPriceGweiOf Ex.envGasAtCeiling.feeData = some 50 := by
    norm_num [gasPriceGweiOf, Ex.envGasAtCeiling]
  have helig : recordEligible Ex.cfgBot Ex.envGasAtCeiling := by
    refine ⟨rfl, ?_⟩
    rw [hg]
    norm_num [Ex.cfgBot]
  refine ⟨by rw [hg]; norm_num [Ex.cfgBot], ?_⟩
  rw [tryRecordPrice_success helig rfl]
  rfl

/-- **C7, amended.** In each cycle the feed is skipped — without any
error and with every counter unchanged — when the recorder reports the
feed not updatable (in particular whenever the minimum interval has not
elapsed), when no gas price can be determined, or when the gas price is
strictly ABOVE the configured ceiling; a recording transaction is
attempted exactly when the recorder reports updatable and a known gas
price is less than or equal to the ceiling. -/
theorem c7_amended_eligibility :
    (∀ (rs : PriceRecorder.RecorderState) (t pool : Nat),
      t < rs.lastUpdate pool + rs.updateInterval →
      PriceRecorder.canUpdate rs t pool = false) ∧
    (∀ (cfg : BotConfig) (env : CycleEnv) (st : RecordingStats),
      ¬ recordEligible cfg env →
      tryRecordPrice cfg env st = (st, RecordOutcome.skipped, false)) ∧
    (∀ (cfg : BotConfig) (env : CycleEnv) (st : RecordingStats),
      (tryRecordPrice cfg env st).2.1 ≠ RecordOutcome.skipped ↔
        recordEligible cfg env) := by
  refine ⟨?_, fun cfg env st h => tryRecordPrice_skipped h, ?_⟩
  · intro rs t pool hnot
    unfold PriceRecorder.canUpdate
    split_ifs with h
    · rfl
    · exact decide_eq_false (by omega)
  · intro cfg env st
    by_cases he : recordEligible cfg env
    · cases hrec : env.recordSucceeds with
      | true => rw [tryRecordPrice_success he hrec]; simp [he]
      | false => rw [tryRecordPrice_failure he hrec]; simp [he]
    · rw [tryRecordPrice_skipped he]
      simp [he]

/-- Witness for the amended C7: the recorder with interval 300 and last
recording at 1000 reports not-updatable at time 1100, and a cycle whose
recorder says not-updatable is skipped with all counters unchanged. -/
theorem c7_witness :
    PriceRecorder.canUpdate Ex.rsRecorder 1100 22 = false ∧
    tryRecordPrice Ex.cfgBot Ex.envCannotUpdate Ex.recStats0 =
      (Ex.recStats0, RecordOutcome.skipped, false) :=
  ⟨c7_amended_eligibility.1 Ex.rsRecorder 1100 22 (by norm_num [Ex.rsRecorder]),
   c7_amended_eligibility.2.1 Ex.cfgBot Ex.envCannotUpdate Ex.recStats0
     (fun he => absurd he.1 (by decide))⟩

/-- **C8.** `waitForFinalization` polls the relay predicate at the fixed
10-second interval, returns `true` exactly when some poll before the
deadline reports the round finalized, and otherwise — the deadline
elapsing without a positive poll — returns `false` (a value, not a raised
error), so the caller can treat the timeout as retryable. -/
theorem c8_waitForFinalization_retryable :
    ∀ (isFin : Nat → Bool) (maxWaitSeconds : Nat),
      (waitForFinalization isFin maxWaitSeconds = true ↔
        ∃ k, 10 * k < maxWaitSeconds ∧ isFin (10 * k) = true) ∧
      ((∀ k, 10 * k < maxWaitSeconds → isFin (10 * k) = false) →
        waitForFinalization isFin maxWaitSeconds = false) := by
  intro isFin max
  have hiff := waitForFinalizationFrom_true_iff isFin max max 0 (by omega)
  simp only [Nat.zero_add] at hiff
  constructor
  · exact hiff
  · intro hall
    cases hw : waitForFinalization isFin max with
    | false => rfl
    | true =>
      obtain ⟨k, hk, hfk⟩ := hiff.mp hw
      rw [hall k hk] at hfk
      exact absurd hfk (by simp)

/-- Witness for C8: a round that finalizes by the third poll yields
`true`; a relay that never finalizes within a 30-second deadline yields
`false`. -/
theorem c8_witness :
    waitForFinalization (fun t => decide (20 ≤ t)) 60 = true ∧
    waitForFinalization (fun _ => false) 30 = false :=
  ⟨(c8_waitForFinalization_retryable (fun t => decide (20 ≤ t)) 60).1.mpr
      ⟨2, by norm_num, by norm_num⟩,
   (c8_waitForFinalization_retryable (fun _ => false) 30).2 (fun k _ => rfl)⟩

end FlareCustomFeeds
